import Mathlib

/-!
Verification of the `mpc-carrier` peer-to-peer message carrier against its
specification.  The Rust sources (`src/protobuf_tcp.rs`, `src/tls.rs`,
`src/channels.rs`, `src/node.rs`, `src/lib.rs`) are shallowly embedded:
pure data manipulation becomes Lean functions, each session loop becomes a
step function folded over a list of `select` outcomes, and the surrounding
async runtime (sockets, oneshot channels, executors) is represented by the
values it hands to the code.  Machine integers are `Nat` with explicit
bounds where overflow or conversion matters.
-/

namespace MpcCarrier

/-- Decidable equality for `Except`, used to settle claims on concrete
inputs by evaluation. -/
instance {ε α : Type} [DecidableEq ε] [DecidableEq α] : DecidableEq (Except ε α) := fun a b =>
  match a, b with
  | .error e, .error f =>
      if h : e = f then isTrue (by rw [h]) else isFalse (by simp [h])
  | .error _, .ok _ => isFalse (by intro hc; exact Except.noConfusion hc)
  | .ok _, .error _ => isFalse (by intro hc; exact Except.noConfusion hc)
  | .ok a, .ok b =>
      if h : a = b then isTrue (by rw [h]) else isFalse (by simp [h])

/-- Byte strings (request identifiers, payloads) are lists of naturals. -/
abbrev Bytes := List Nat

/-- `messages::NodeRequest` generated from `messages.proto`: an opaque
request identifier plus the application payload (field names as used by
`examples/node.rs`). -/
structure NodeRequest where
  request_id : Bytes
  distance_list : Bytes
deriving DecidableEq, Repr

/-- `messages::NodeResponse`: carries only the echoed request identifier. -/
structure NodeResponse where
  request_id : Bytes
deriving DecidableEq, Repr

/-- Log levels of the `tracing` calls that the claims mention. -/
inductive LogLevel where
  | debug
  | error
  | trace
deriving DecidableEq, Repr

namespace ProtobufTcp

/-- `protobuf_tcp::Error` (protobuf_tcp.rs 12-21).  The payload of each
variant (the underlying `io::Error`, decode or encode error) is irrelevant
to the claims and omitted. -/
inductive Error where
  | Io
  | Decode
  | Encode
  | InvalidLen
deriving DecidableEq, Repr

/-- `protobuf_tcp::Writer` (protobuf_tcp.rs 31-35).  `stream` is the byte
sequence written to the underlying (buffered) stream so far; the internal
scratch `buffer` is invisible to callers and not tracked. -/
structure Writer where
  stream : List Nat
  max_len : Nat
deriving DecidableEq, Repr

/-- The four bytes put on the wire by `write_u32` for a value `n < 2^32`:
big-endian byte order. -/
def be32 (n : Nat) : List Nat :=
  [n / 2 ^ 24 % 256, n / 2 ^ 16 % 256, n / 2 ^ 8 % 256, n % 256]

/-- `usize::try_into::<u32>()`: succeeds exactly when the value fits in 32
bits; `none` is the `Err` case whose `unwrap()` panics. -/
def u32TryFrom (n : Nat) : Option Nat :=
  if n < 2 ^ 32 then some n else none

/-- `Writer::write` (protobuf_tcp.rs 69-79).  A prost message is
represented by its wire encoding `payload`; `encoded_len()` is then
`payload.length` and `encode` produces exactly those bytes (prost's
contract).  The underlying stream is modelled as an infallible byte sink
(the claims concern what is written when I/O succeeds).  Result `none`
models a panic of `length.try_into().unwrap()`; otherwise the result
carries the `Result<(), Error>` together with the writer state after the
call. -/
def Writer.write (w : Writer) (payload : List Nat) :
    Option (Except Error Unit × Writer) :=
  if payload.length > w.max_len then
    some (Except.error Error.InvalidLen, w)
  else
    match u32TryFrom payload.length with
    | none => none
    | some len =>
        some (Except.ok (), { w with stream := w.stream ++ be32 len ++ payload })

end ProtobufTcp

/-- `node::MAX_LEN` (node.rs 20): the frame size bound the carrier passes
to `protobuf_tcp::new`. -/
def MAX_LEN : Nat := 8 * 1024 * 1024

namespace Tls

/-- `tls::Error` (tls.rs 14-25).  The payloads (`io::Error`,
`rustls::Error`) do not matter to the claims and are omitted. -/
inductive Error where
  | CertChainIo
  | CertPrivKeyIo
  | CertPrivKeyMissing
  | ServerConfig
  | ClientConfig
deriving DecidableEq, Repr

/-- Client-certificate policy of a rustls server configuration:
`noClientAuth` is what `ServerConfig::builder().with_no_client_auth()`
selects (no client certificate is requested or verified);
`requireClientCert` stands for the rustls builders that request and verify
a client certificate. -/
inductive ClientAuthPolicy where
  | noClientAuth
  | requireClientCert
deriving DecidableEq, Repr

/-- The rustls `ServerConfig` as far as the claims are concerned:
the client-auth policy selected by the builder, and the certificate chain
and private key offered (`with_single_cert`).  Certificates and keys are
opaque identifiers. -/
structure ServerConfig where
  clientAuth : ClientAuthPolicy
  certChain : List Nat
  privKey : Nat
deriving DecidableEq, Repr

/-- The rustls `ClientConfig`: the trusted root store contents
(`with_root_certificates`, filled from `webpki_roots::TLS_SERVER_ROOTS`)
and the client credentials presented (`with_client_auth_cert`). -/
structure ClientConfig where
  roots : List Nat
  clientAuthChain : List Nat
  clientAuthKey : Nat
deriving DecidableEq, Repr

/-- `tls::init` (tls.rs 28-54), embedded over the outcomes of its
effectful steps: `chainFile` and `keyFile` are the two `File::open`
results, `parsedCerts` the `certs(..).collect::<Result<Vec<_>, _>>()`
outcome, `parsedKey` the `private_key(..)` outcome (with `none` meaning no
key was recognized), and `serverBuild` / `clientBuild` the outcomes of the
two rustls builder calls.  `webpkiRoots` is the content of
`webpki_roots::TLS_SERVER_ROOTS`.  The error mapping and the order of the
checks follow the source line by line; the server configuration is built
`with_no_client_auth()`. -/
def init (chainFile keyFile : Except Unit Unit)
    (parsedCerts : Except Unit (List Nat))
    (parsedKey : Except Unit (Option Nat))
    (serverBuild clientBuild : Except Unit Unit)
    (webpkiRoots : List Nat) :
    Except Error (ServerConfig × ClientConfig) :=
  match chainFile with
  | .error _ => .error .CertChainIo
  | .ok _ =>
  match keyFile with
  | .error _ => .error .CertPrivKeyIo
  | .ok _ =>
  match parsedCerts with
  | .error _ => .error .CertChainIo
  | .ok chain =>
  match parsedKey with
  | .error _ => .error .CertPrivKeyIo
  | .ok none => .error .CertPrivKeyMissing
  | .ok (some key) =>
  match serverBuild with
  | .error _ => .error .ServerConfig
  | .ok _ =>
  match clientBuild with
  | .error _ => .error .ClientConfig
  | .ok _ =>
      .ok ({ clientAuth := .noClientAuth, certChain := chain, privKey := key },
           { roots := webpkiRoots, clientAuthChain := chain, clientAuthKey := key })

end Tls

/-- Poll state of one per-peer `mpsc::Receiver<NodeCallback>` at the
moment `Incoming::recv` polls it: `pending` means open with no message
buffered (`rx.next()` is not ready), `ready cb` means a callback envelope
(identified by token `cb`) is buffered, `closed` means all senders were
dropped and the queue is drained (`rx.next()` is immediately ready with
`None`). -/
inductive QueuePoll where
  | pending
  | ready (cb : Nat)
  | closed
deriving DecidableEq, Repr

/-- The poll result of `rx.next().map(|callback| callback.map(|callback|
(node.as_str(), callback)))` as seen by `select_all` (channels.rs 51-54):
`none` = future not ready, `some v` = ready with value `v`. -/
def pollNext (node : String) : QueuePoll → Option (Option (String × Nat))
  | .pending => none
  | .ready cb => some (some (node, cb))
  | .closed => some none

/-- Outcome of awaiting `future::select_all`. -/
inductive SelectAll (α : Type) where
  | panicked
  | suspended
  | resolved (a : α)
deriving DecidableEq, Repr

/-- `future::select_all` over the poll states of its argument futures.
Per the futures crate contract it panics when the collection is empty;
otherwise it resolves with the value of the first ready future (none
ready: the caller suspends until one becomes ready). -/
def selectAll {α : Type} (polls : List (Option α)) : SelectAll α :=
  if polls.isEmpty then .panicked
  else
    match polls.findSome? id with
    | some a => .resolved a
    | none => .suspended

/-- `channels::Incoming` (channels.rs 22-24): the per-peer incoming queue
receivers, each with its current poll state. -/
structure Incoming where
  channels : List (String × QueuePoll)
deriving DecidableEq, Repr

/-- `Incoming::recv` (channels.rs 50-57): `select_all` over
`rx.next().map(..)` for every per-peer queue.  The value `resolved none`
is `recv` returning `None` (end-of-stream); `resolved (some (node, cb))`
is a received envelope. -/
def Incoming.recv (inc : Incoming) : SelectAll (Option (String × Nat)) :=
  selectAll (inc.channels.map fun p => pollNext p.1 p.2)

/-- `channels::Outgoing` (channels.rs 27-29): the peers that hold an
outgoing queue sender. -/
structure Outgoing where
  channels : List String
deriving DecidableEq, Repr

/-- `channels::SendError` (channels.rs 33-40). -/
inductive SendError where
  | ForwardClosed
  | ReturnClosed
deriving DecidableEq, Repr

/-- `Carrier` (lib.rs 48-52): the supervisor's half of the per-peer
channel sets.  Only the key sets matter to the claims. -/
structure Carrier where
  nodes : List (String × Nat)
  incoming : List String
  outgoing : List String
deriving DecidableEq, Repr

/-- `Carrier::new` (lib.rs 58-77): for every peer of the directory it
creates one bounded incoming queue and one bounded outgoing queue
(capacity 64) and hands the receivers to `Incoming` and the senders to
`Outgoing`.  A freshly created queue is open and empty, hence polls as
`pending`. -/
def Carrier.new (nodes : List (String × Nat)) : Carrier × Incoming × Outgoing :=
  ({ nodes := nodes,
     incoming := nodes.map Prod.fst,
     outgoing := nodes.map Prod.fst },
   { channels := nodes.map fun p => (p.1, QueuePoll.pending) },
   { channels := nodes.map Prod.fst })

namespace Node

/-- `node::Error` (node.rs 26-39).  The `io::Error` payloads of `Tls` and
`Socket` are omitted. -/
inductive NodeError where
  | Tls
  | Socket
  | Sni
  | UnknownServerName
  | Protocol (e : ProtobufTcp.Error)
  | UnexpectedResponse (request_id : Bytes)
deriving DecidableEq, Repr

/-- Result of one iteration of a session loop: keep looping with the new
state, or leave the loop (returning `Ok(())` or an error) with the state
at that moment. -/
inductive StepResult (σ : Type) where
  | next (s : σ)
  | halt (s : σ) (r : Except NodeError Unit)

/-- Folds a session's step function over the sequence of `select`
outcomes.  The second component is `some r` when the session returned
with result `r`, and `none` when the events ran out while the loop was
still going. -/
def runLoop {σ ε : Type} (step : σ → ε → StepResult σ) :
    σ → List ε → σ × Option (Except NodeError Unit)
  | s, [] => (s, none)
  | s, e :: es =>
    match step s e with
    | .next s' => runLoop step s' es
    | .halt s' r => (s', some r)

/-- `HashMap::get` / key lookup on an association list. -/
def assocLookup {κ β : Type} [DecidableEq κ] : List (κ × β) → κ → Option β
  | [], _ => none
  | (k', v') :: rest, k => if k' = k then some v' else assocLookup rest k

/-- `HashMap::insert` on an association list with unique keys: stores `v`
under `k` — replacing the previously stored value if the key was present —
and returns the updated map together with the previous value (`std`
semantics: the entry is updated in both cases). -/
def mapInsert : List (Bytes × Nat) → Bytes → Nat → List (Bytes × Nat) × Option Nat
  | [], k, v => ([(k, v)], none)
  | (k', v') :: rest, k, v =>
    if k' = k then ((k, v) :: rest, some v')
    else
      let p := mapInsert rest k v
      ((k', v') :: p.1, p.2)

/-- `HashMap::remove`: deletes the entry stored under `k`, returning the
updated map and the removed value. -/
def mapRemove : List (Bytes × Nat) → Bytes → List (Bytes × Nat) × Option Nat
  | [], _ => ([], none)
  | (k', v') :: rest, k =>
    if k' = k then (rest, some v')
    else
      let p := mapRemove rest k
      ((k', v') :: p.1, p.2)

/-- One outcome of the `future::select` inside `serve_outgoing`'s loop
(node.rs 128).  Oneshot reply senders are identified by tokens: the
envelope event carries the token of its `callback` sender. -/
inductive OutEvent where
  | envelope (message : NodeRequest) (tok : Nat)
  | response (message : NodeResponse)
  | queueClosed
  | readerEos
  | readerErr (e : ProtobufTcp.Error)
deriving DecidableEq, Repr

/-- State of one established outbound connection (`serve_outgoing`,
node.rs 125-150): the in-flight map `callbacks`, plus the observable
history — frames written and flushed (`wire`), `error!` log occurrences
(`errorLogs`, by colliding id), responses delivered through a reply
sender (`delivered`), and reply senders dropped without sending
(`dropped`).  A dropped oneshot sender cancels its receiver, so the
waiting `Outgoing::send` resolves with `ReturnClosed`. -/
structure OutState where
  callbacks : List (Bytes × Nat)
  wire : List NodeRequest
  errorLogs : List Bytes
  delivered : List (Nat × NodeResponse)
  dropped : List Nat
deriving DecidableEq, Repr

/-- The state right after `let mut callbacks = HashMap::new()`
(node.rs 125). -/
def initOutState : OutState :=
  { callbacks := [], wire := [], errorLogs := [], delivered := [], dropped := [] }

/-- One iteration of the `serve_outgoing` loop (node.rs 127-150):
 * envelope from the queue: `callbacks.insert(message.request_id, callback)`
   — if it returned `None` the frame is written and flushed, otherwise the
   collision is logged at error level and nothing is written; the value
   returned by `insert` (the previous sender on a collision) is dropped at
   the end of the statement;
 * decoded response: `callbacks.remove(&request_id)` — present: deliver
   through the removed sender; absent: fail `UnexpectedResponse`;
 * queue closed or reader end-of-stream: return `Ok(())`;
 * reader error: propagate (`let message = message?`). -/
def outStep (s : OutState) : OutEvent → StepResult OutState
  | .envelope msg tok =>
    let p := mapInsert s.callbacks msg.request_id tok
    match p.2 with
    | none =>
        .next { s with callbacks := p.1, wire := s.wire ++ [msg] }
    | some oldTok =>
        .next { s with callbacks := p.1,
                       errorLogs := s.errorLogs ++ [msg.request_id],
                       dropped := s.dropped ++ [oldTok] }
  | .response msg =>
    let p := mapRemove s.callbacks msg.request_id
    match p.2 with
    | some tok =>
        .next { s with callbacks := p.1, delivered := s.delivered ++ [(tok, msg)] }
    | none =>
        .halt s (.error (.UnexpectedResponse msg.request_id))
  | .queueClosed => .halt s (.ok ())
  | .readerEos => .halt s (.ok ())
  | .readerErr e => .halt s (.error (.Protocol e))

/-- Resolution of the `rx.await` inside `Outgoing::send`
(channels.rs 81) for the caller holding the receiver paired with the
sender token `tok`, read off a session state: `Ok resp` once the session
delivered `resp` through that sender, `Err ReturnClosed` once the sender
was dropped without being used, still pending (`none`) otherwise. -/
def callerOutcome (s : OutState) (tok : Nat) :
    Option (Except SendError NodeResponse) :=
  match assocLookup s.delivered tok with
  | some resp => some (.ok resp)
  | none => if tok ∈ s.dropped then some (.error .ReturnClosed) else none

/-- What the `loop` body of `node::outgoing` (node.rs 66-73) does with
control after `serve_outgoing` returns. -/
inductive LoopControl where
  | restartAfterSleep
  | returnFromTask (r : Except NodeError Unit)
deriving DecidableEq, Repr

/-- The `loop` body of `node::outgoing`: `if let Err(err) = serve_outgoing(..)
{ debug!(..) } sleep(OUTGOING_CONNECTION_RETRY_INTERVAL).await;` — for
either result control falls through to the sleep and the loop repeats;
the body contains no `break` or `return`. -/
def outgoingLoopBody (r : Except NodeError Unit) : LoopControl × List LogLevel :=
  (.restartAfterSleep,
   match r with
   | .ok _ => []
   | .error _ => [LogLevel.debug])

/-- The `node::outgoing` task observed for `fuel` loop iterations;
`sessions n` is the result of the `n`-th `serve_outgoing` call
(one connection attempt each).  `some r` would mean the task returned
with `r` within the observed iterations; `none` means it is still
looping. -/
def outgoingTask : Nat → (Nat → Except NodeError Unit) → Option (Except NodeError Unit)
  | 0, _ => none
  | fuel + 1, sessions =>
    match (outgoingLoopBody (sessions 0)).1 with
    | .restartAfterSleep => outgoingTask fuel fun n => sessions (n + 1)
    | .returnFromTask r => some r

/-- One outcome of the `future::select` inside `serve_incoming`'s loop
(node.rs 92): a decoded request frame from `incoming_requests`, the
completion of the pending reply receiver at position `i` of the
`FuturesUnordered` set (completions happen in arbitrary order), reader
end-of-stream, or a reader error. -/
inductive InEvent where
  | request (req : NodeRequest)
  | replyReady (i : Nat)
  | readerEos
  | readerErr (e : ProtobufTcp.Error)
deriving DecidableEq, Repr

/-- State of one accepted inbound connection (`serve_incoming`,
node.rs 87-105): requests read from the wire (`received`), envelopes
pushed into the peer's incoming queue (`queued`), requests whose reply
receiver sits in the `FuturesUnordered` set (`pending`), and reply frames
written and flushed (`wire`). -/
structure InState where
  received : List NodeRequest
  queued : List NodeRequest
  pending : List NodeRequest
  wire : List NodeResponse
deriving DecidableEq, Repr

/-- The state right after the stream is split (node.rs 87-90). -/
def initInState : InState :=
  { received := [], queued := [], pending := [], wire := [] }

/-- One iteration of the `serve_incoming` loop (node.rs 91-105), with the
application modelled as `app : NodeRequest → Option NodeResponse` — the
value it sends into the reply channel of the request's envelope, `none`
when it drops the sender without replying:
 * request frame: wrap into an envelope (`Callback::new`), push the
   envelope into the peer's incoming queue, push the reply receiver into
   the pending set (`incoming_requests`, node.rs 157-164);
 * completion of pending receiver `i`: `Ok(response)` → write and flush
   the frame; cancelled (sender dropped) → write nothing;
 * reader end-of-stream: `incoming_requests` ends, return `Ok(())`;
 * reader error: propagate (`rx?`). -/
def inStep (app : NodeRequest → Option NodeResponse) (s : InState) :
    InEvent → StepResult InState
  | .request req =>
      .next { s with received := s.received ++ [req],
                     queued := s.queued ++ [req],
                     pending := s.pending ++ [req] }
  | .replyReady i =>
    match s.pending.get? i with
    | none => .next s
    | some req =>
      let s' := { s with pending := s.pending.eraseIdx i }
      match app req with
      | some resp => .next { s' with wire := s'.wire ++ [resp] }
      | none => .next s'
  | .readerEos => .halt s (.ok ())
  | .readerErr e => .halt s (.error (.Protocol e))

/-- `serve_incoming` (node.rs 76-106): TLS accept, SNI extraction
(`None` → `Error::Sni`), lookup of the peer's incoming sender
(absent → `Error::UnknownServerName`), then the session loop.
`handshake` is the `acceptor.accept(sock)` outcome, `sni` the server name
the client presented, `peers` the key set of the incoming-sender map.
Returns the session result (`none` while still looping) together with the
envelopes delivered into the peer's incoming queue. -/
def serve_incoming (handshake : Except Unit Unit) (sni : Option String)
    (peers : List String) (app : NodeRequest → Option NodeResponse)
    (events : List InEvent) :
    Option (Except NodeError Unit) × List NodeRequest :=
  match handshake with
  | .error _ => (some (.error .Tls), [])
  | .ok _ =>
  match sni with
  | none => (some (.error .Sni), [])
  | some name =>
    if name ∈ peers then
      let p := runLoop (inStep app) initInState events
      (p.2, p.1.queued)
    else
      (some (.error .UnknownServerName), [])

/-- `crate::Error` (lib.rs 40-45). -/
inductive CarrierError where
  | TlsInit
  | Socket
deriving DecidableEq, Repr

/-- `node::incoming` (node.rs 43-55): runs `serve_incoming`; `Ok` is
passed through, an error is logged at debug level ("Connection
terminated") and turned into `Ok(())` — it never propagates to the accept
loop.  Result: the task result (`none` while the session is still
looping) and the log entries emitted by this wrapper. -/
def incoming (handshake : Except Unit Unit) (sni : Option String)
    (peers : List String) (app : NodeRequest → Option NodeResponse)
    (events : List InEvent) :
    Option (Except CarrierError Unit) × List LogLevel :=
  match (serve_incoming handshake sni peers app events).1 with
  | some (Except.ok _) => (some (.ok ()), [])
  | some (Except.error _) => (some (.ok ()), [LogLevel.debug])
  | none => (none, [])

/-- Registration predicate for the outbound session: token `tok` was
submitted to the outgoing queue inside an envelope whose message has
request id `rid`. -/
def Registered (tr : List OutEvent) (tok : Nat) (rid : Bytes) : Prop :=
  ∃ msg : NodeRequest, OutEvent.envelope msg tok ∈ tr ∧ msg.request_id = rid

end Node

/-- Trace of `serve_outgoing` select outcomes exhibiting a request-id
collision: two envelopes with the same `request_id` and distinct reply
sender tokens. -/
def c1trace : List Node.OutEvent :=
  [Node.OutEvent.envelope { request_id := [7], distance_list := [1] } 0,
   Node.OutEvent.envelope { request_id := [7], distance_list := [2] } 1]

/-- Trace of a completed round trip on an outbound connection: one
envelope (token 0) followed by the matching response. -/
def c6trace : List Node.OutEvent :=
  [Node.OutEvent.envelope { request_id := [5], distance_list := [9] } 0,
   Node.OutEvent.response { request_id := [5] }]

/-- An application that answers every request with a reply whose
request id is the fixed byte string `[1]` — it does not echo the id. -/
def badApp : NodeRequest → Option NodeResponse :=
  fun _ => some { request_id := [1] }

/-- An application that echoes every request id verbatim (as
`examples/node.rs` does). -/
def echoApp : NodeRequest → Option NodeResponse :=
  fun q => some { request_id := q.request_id }

end MpcCarrier

namespace MpcCarrier

/-- A sanity fact kept as a compiled example: an in-bounds write appends
exactly the 4-byte big-endian length and the payload. -/
theorem write_small_example :
    ProtobufTcp.Writer.write { stream := [], max_len := MAX_LEN } [1, 2, 3] =
      some (Except.ok (),
        { stream := [0, 0, 0, 3, 1, 2, 3], max_len := MAX_LEN }) := by decide

namespace Node

theorem assocLookup_mem {κ β : Type} [DecidableEq κ] {l : List (κ × β)} {k : κ} {b : β}
    (h : assocLookup l k = some b) : (k, b) ∈ l := by
  induction l with
  | nil => simp [assocLookup] at h
  | cons p rest ih =>
    obtain ⟨k', v'⟩ := p
    by_cases hk : k' = k
    · subst hk
      simp [assocLookup] at h
      simp [h]
    · simp [assocLookup, hk] at h
      exact List.mem_cons_of_mem _ (ih h)

theorem mapInsert_snd (m : List (Bytes × Nat)) (k : Bytes) (v : Nat) :
    (mapInsert m k v).2 = assocLookup m k := by
  induction m with
  | nil => simp [mapInsert, assocLookup]
  | cons p rest ih =>
    obtain ⟨k', v'⟩ := p
    by_cases h : k' = k
    · subst h; simp [mapInsert, assocLookup]
    · simp [mapInsert, assocLookup, h, ih]

theorem mapInsert_lookup (m : List (Bytes × Nat)) (k : Bytes) (v : Nat) :
    assocLookup (mapInsert m k v).1 k = some v := by
  induction m with
  | nil => simp [mapInsert, assocLookup]
  | cons p rest ih =>
    obtain ⟨k', v'⟩ := p
    by_cases h : k' = k
    · subst h; simp [mapInsert, assocLookup]
    · simp [mapInsert, assocLookup, h, ih]

theorem mapInsert_mem {m : List (Bytes × Nat)} {k : Bytes} {v : Nat} {a : Bytes} {b : Nat}
    (h : (a, b) ∈ (mapInsert m k v).1) : (a, b) ∈ m ∨ (a = k ∧ b = v) := by
  induction m with
  | nil =>
    simp [mapInsert] at h
    exact Or.inr h
  | cons p rest ih =>
    obtain ⟨k', v'⟩ := p
    by_cases hk : k' = k
    · subst hk
      simp [mapInsert] at h
      rcases h with ⟨ha, hb⟩ | h
      · exact Or.inr ⟨ha, hb⟩
      · exact Or.inl (List.mem_cons_of_mem _ h)
    · simp [mapInsert, hk] at h
      rcases h with ⟨ha, hb⟩ | h
      · exact Or.inl (by simp [ha, hb])
      · rcases ih h with h' | h'
        · exact Or.inl (List.mem_cons_of_mem _ h')
        · exact Or.inr h'

theorem mapRemove_mem {m : List (Bytes × Nat)} {k : Bytes} {a : Bytes} {b : Nat}
    (h : (a, b) ∈ (mapRemove m k).1) : (a, b) ∈ m := by
  induction m with
  | nil => simp [mapRemove] at h
  | cons p rest ih =>
    obtain ⟨k', v'⟩ := p
    by_cases hk : k' = k
    · subst hk
      simp [mapRemove] at h
      exact List.mem_cons_of_mem _ h
    · simp [mapRemove, hk] at h
      rcases h with ⟨ha, hb⟩ | h
      · simp [ha, hb]
      · exact List.mem_cons_of_mem _ (ih h)

theorem mapRemove_snd_mem {m : List (Bytes × Nat)} {k : Bytes} {t : Nat}
    (h : (mapRemove m k).2 = some t) : (k, t) ∈ m := by
  induction m with
  | nil => simp [mapRemove] at h
  | cons p rest ih =>
    obtain ⟨k', v'⟩ := p
    by_cases hk : k' = k
    · subst hk
      simp [mapRemove] at h
      simp [h]
    · simp [mapRemove, hk] at h
      exact List.mem_cons_of_mem _ (ih h)

/-- Claim C1, counterexample.  On the trace `c1trace` — two envelopes with
the colliding request id `[7]`, reply sender tokens 0 then 1 — the code
drops the second message (only the first frame is on the wire, the
collision is logged at error level), but contrary to the claim the
in-flight map entry IS overwritten: it now holds the NEW sender (token 1,
not 0), the ORIGINAL sender (token 0) is the one dropped, the original
caller resolves with `ReturnClosed`, and the colliding caller is the one
left pending.  (`HashMap::insert` updates the entry and returns the old
value; `serve_outgoing` merely tests `is_none()` on that old value,
node.rs 131-139.) -/
theorem outbound_collision_ce :
    (runLoop outStep initOutState c1trace).1.wire =
      [{ request_id := [7], distance_list := [1] }] ∧
    (runLoop outStep initOutState c1trace).1.errorLogs = [[7]] ∧
    (runLoop outStep initOutState c1trace).1.callbacks = [([7], 1)] ∧
    assocLookup (runLoop outStep initOutState c1trace).1.callbacks [7] ≠ some 0 ∧
    (runLoop outStep initOutState c1trace).1.dropped = [0] ∧
    callerOutcome (runLoop outStep initOutState c1trace).1 0 =
      some (Except.error SendError.ReturnClosed) ∧
    callerOutcome (runLoop outStep initOutState c1trace).1 1 ≠
      some (Except.error SendError.ReturnClosed) ∧
    callerOutcome (runLoop outStep initOutState c1trace).1 1 = none := by
  decide

/-- Claim C1, amended.  For every outbound session state and every
envelope whose message's `request_id` already keys an in-flight entry
(holding the old sender `oldTok`): the message is dropped — no frame is
written — and the collision is logged at error level; but the map entry is
overwritten with the new envelope's reply sender, and it is the OLD
sender that is dropped (surfacing `ReturnClosed` at the original caller),
while the new sender stays registered under the id. -/
theorem outbound_collision_overwrites (s : OutState) (msg : NodeRequest) (tok oldTok : Nat)
    (h : assocLookup s.callbacks msg.request_id = some oldTok) :
    outStep s (.envelope msg tok) = .next
      { s with callbacks := (mapInsert s.callbacks msg.request_id tok).1,
               errorLogs := s.errorLogs ++ [msg.request_id],
               dropped := s.dropped ++ [oldTok] } ∧
    assocLookup (mapInsert s.callbacks msg.request_id tok).1 msg.request_id = some tok := by
  have h2 : (mapInsert s.callbacks msg.request_id tok).2 = some oldTok := by
    rw [mapInsert_snd]; exact h
  constructor
  · simp only [outStep]
    rw [h2]
  · exact mapInsert_lookup _ _ _

/-- Witness for `outbound_collision_overwrites` at a concrete state: one
in-flight entry `[7] ↦ 0`, colliding envelope with sender token 1. -/
theorem outbound_collision_overwrites_witness :
    assocLookup [([7], 0)] [7] = some 0 ∧
    assocLookup (mapInsert [([7], 0)] [7] 1).1 [7] = some 1 :=
  ⟨by decide,
   (outbound_collision_overwrites
      { callbacks := [([7], 0)], wire := [], errorLogs := [], delivered := [],
        dropped := [] }
      { request_id := [7], distance_list := [2] } 1 0 (by decide)).2⟩

/-- Claim C3, counterexample.  `serve_outgoing` does return `Ok(())` when
the outgoing queue closes, but the `outgoing` task does not terminate:
its loop body unconditionally falls through to the retry sleep and
reconnects — even when every session attempt returns cleanly, the task is
still looping after any number of iterations. -/
theorem outgoing_restart_ce :
    (runLoop outStep initOutState [OutEvent.queueClosed]).2 = some (Except.ok ()) ∧
    (outgoingLoopBody (Except.ok ())).1 = LoopControl.restartAfterSleep ∧
    outgoingTask 5 (fun _ => Except.ok ()) = none ∧
    outgoingTask 5 (fun _ => Except.ok ()) ≠ some (Except.ok ()) := by
  exact ⟨rfl, rfl, rfl, by decide⟩

/-- Claim C3, amended.  If the outgoing queue is closed or the reader
reaches end-of-stream, `serve_outgoing` returns cleanly (`Ok(())`) — but
the outbound session task (`node::outgoing`) does not terminate: whatever
each `serve_outgoing` call returns, the loop body restarts the connection
after the retry interval, so the task is still running after any number
of iterations. -/
theorem outgoing_clean_return_restarts (s : OutState) (fuel : Nat)
    (sessions : Nat → Except NodeError Unit) :
    outStep s OutEvent.queueClosed = StepResult.halt s (Except.ok ()) ∧
    outStep s OutEvent.readerEos = StepResult.halt s (Except.ok ()) ∧
    (outgoingLoopBody (sessions 0)).1 = LoopControl.restartAfterSleep ∧
    outgoingTask fuel sessions = none := by
  refine ⟨rfl, rfl, rfl, ?_⟩
  induction fuel generalizing sessions with
  | zero => rfl
  | succ n ih => exact ih _

end Node

/-- Claim C5, counterexample.  The write contract as stated fails for a
writer whose configured maximum exceeds `u32::MAX`: with
`max_len = 2 ^ 32` and a message whose encoded length is exactly
`2 ^ 32 ≤ max_len`, `write` does not succeed — the conversion
`length.try_into::<u32>().unwrap()` panics (result `none`). -/
theorem write_len_u32_overflow_ce :
    (List.replicate (2 ^ 32) (0 : Nat)).length ≤ (2 ^ 32 : Nat) ∧
    ProtobufTcp.Writer.write { stream := [], max_len := 2 ^ 32 }
      (List.replicate (2 ^ 32) 0) = none := by
  have hlen : (List.replicate (2 ^ 32) (0 : Nat)).length = 2 ^ 32 :=
    List.length_replicate _ _
  constructor
  · rw [hlen]
  · unfold ProtobufTcp.Writer.write
    rw [hlen]
    rw [if_neg (lt_irrefl (2 ^ 32))]
    unfold ProtobufTcp.u32TryFrom
    rw [if_neg (lt_irrefl (2 ^ 32))]

/-- Claim C5, amended.  For every message (represented by its encoding
`payload`, of encoded length `L = payload.length`) and every writer: if
`L` exceeds `max_len`, `write` fails with `InvalidLen` and the stream is
unchanged; if `L ≤ max_len` and additionally `L` fits in a `u32`
(automatic for the carrier's 8 MiB maximum), `write` succeeds and appends
exactly the 4-byte big-endian encoding of `L` followed by the `L` payload
bytes. -/
theorem write_contract (w : ProtobufTcp.Writer) (payload : List Nat) :
    (payload.length > w.max_len →
      w.write payload = some (Except.error ProtobufTcp.Error.InvalidLen, w)) ∧
    (payload.length ≤ w.max_len → payload.length < 2 ^ 32 →
      w.write payload = some (Except.ok (),
        { w with stream := w.stream ++ ProtobufTcp.be32 payload.length ++ payload })) := by
  constructor
  · intro h
    simp [ProtobufTcp.Writer.write, h]
  · intro h1 h2
    simp only [ProtobufTcp.Writer.write, ProtobufTcp.u32TryFrom]
    rw [if_neg (by omega), if_pos h2]

/-- Witness for `write_contract`: an oversize write (length 4, maximum 3)
fails `InvalidLen` leaving the stream untouched, and a write of length
exactly `max_len = 3` puts `00 00 00 03` and the payload on the wire. -/
theorem write_contract_witness :
    ((4 : Nat) > 3 ∧
      ProtobufTcp.Writer.write { stream := [9], max_len := 3 } [1, 2, 3, 4] =
        some (Except.error ProtobufTcp.Error.InvalidLen, { stream := [9], max_len := 3 })) ∧
    ((3 : Nat) ≤ 3 ∧ (3 : Nat) < 2 ^ 32 ∧
      ProtobufTcp.Writer.write { stream := [9], max_len := 3 } [1, 2, 3] =
        some (Except.ok (), { stream := [9, 0, 0, 0, 3, 1, 2, 3], max_len := 3 })) := by
  refine ⟨⟨by decide, (write_contract _ [1, 2, 3, 4]).1 (by decide)⟩,
          ⟨by decide, by decide, ?_⟩⟩
  rw [(write_contract { stream := [9], max_len := 3 } [1, 2, 3]).2 (by decide) (by decide)]
  decide

/-- Claim C10.  For every writer whose configured maximum is at most
`2 ^ 32 - 1` (the carrier passes `MAX_LEN` = 8 MiB), `Writer::write`
never reaches the panicking branch of the length conversion: the
preceding oversize check guarantees the length fits in a `u32`. -/
theorem write_len_conversion_no_panic (w : ProtobufTcp.Writer) (payload : List Nat)
    (hmax : w.max_len ≤ 2 ^ 32 - 1) :
    w.write payload ≠ none := by
  unfold ProtobufTcp.Writer.write
  by_cases h : payload.length > w.max_len
  · simp [h]
  · have hlt : payload.length < 2 ^ 32 := by omega
    rw [if_neg h]
    unfold ProtobufTcp.u32TryFrom
    rw [if_pos hlt]
    simp

/-- Witness for `write_len_conversion_no_panic` at the carrier's actual
maximum `MAX_LEN`. -/
theorem write_len_conversion_no_panic_witness :
    MAX_LEN ≤ 2 ^ 32 - 1 ∧
    ProtobufTcp.Writer.write { stream := [], max_len := MAX_LEN } [1, 2, 3] ≠ none :=
  ⟨by decide, write_len_conversion_no_panic _ [1, 2, 3] (by decide)⟩

/-- Claim C4, counterexample.  On a successful run of `tls::init` the
returned server-side configuration carries the `noClientAuth` policy
(`ServerConfig::builder().with_no_client_auth()`, tls.rs 41-42): the
connecting peer is NOT authenticated by a TLS client certificate. -/
theorem tls_no_client_auth_ce :
    Tls.init (Except.ok ()) (Except.ok ()) (Except.ok [1]) (Except.ok (some 2))
        (Except.ok ()) (Except.ok ()) [9] =
      Except.ok
        ({ clientAuth := Tls.ClientAuthPolicy.noClientAuth, certChain := [1], privKey := 2 },
         { roots := [9], clientAuthChain := [1], clientAuthKey := 2 }) ∧
    Tls.ClientAuthPolicy.noClientAuth ≠ Tls.ClientAuthPolicy.requireClientCert := by
  decide

/-- Claim C4, amended.  Whenever `tls::init` succeeds, the server-side
configuration does not request or verify a client certificate
(`with_no_client_auth`), so inbound peer identity rests solely on the SNI
name; the client-side configuration does present the node's certificate
chain and key (`with_client_auth_cert`) and trusts the web-PKI roots. -/
theorem tls_init_no_client_auth (chainFile keyFile : Except Unit Unit)
    (parsedCerts : Except Unit (List Nat)) (parsedKey : Except Unit (Option Nat))
    (serverBuild clientBuild : Except Unit Unit) (webpkiRoots : List Nat)
    (cfg : Tls.ServerConfig × Tls.ClientConfig)
    (h : Tls.init chainFile keyFile parsedCerts parsedKey serverBuild clientBuild
          webpkiRoots = Except.ok cfg) :
    cfg.1.clientAuth = Tls.ClientAuthPolicy.noClientAuth ∧
    cfg.2.clientAuthChain = cfg.1.certChain ∧
    cfg.2.clientAuthKey = cfg.1.privKey ∧
    cfg.2.roots = webpkiRoots := by
  cases chainFile with
  | error e => simp [Tls.init] at h
  | ok u =>
  cases keyFile with
  | error e => simp [Tls.init] at h
  | ok u' =>
  cases parsedCerts with
  | error e => simp [Tls.init] at h
  | ok chain =>
  cases parsedKey with
  | error e => simp [Tls.init] at h
  | ok keyOpt =>
  cases keyOpt with
  | none => simp [Tls.init] at h
  | some key =>
  cases serverBuild with
  | error e => simp [Tls.init] at h
  | ok u2 =>
  cases clientBuild with
  | error e => simp [Tls.init] at h
  | ok u3 =>
    simp only [Tls.init] at h
    obtain rfl : ({ clientAuth := .noClientAuth, certChain := chain, privKey := key },
        ({ roots := webpkiRoots, clientAuthChain := chain, clientAuthKey := key } :
          Tls.ClientConfig)) = cfg := by
      exact Except.ok.inj h
    exact ⟨rfl, rfl, rfl, rfl⟩

/-- Witness for `tls_init_no_client_auth` at a concrete successful run. -/
theorem tls_init_no_client_auth_witness :
    (({ clientAuth := Tls.ClientAuthPolicy.noClientAuth, certChain := [1], privKey := 2 } :
        Tls.ServerConfig),
     ({ roots := [9], clientAuthChain := [1], clientAuthKey := 2 } :
        Tls.ClientConfig)).1.clientAuth = Tls.ClientAuthPolicy.noClientAuth :=
  (tls_init_no_client_auth (Except.ok ()) (Except.ok ()) (Except.ok [1])
    (Except.ok (some 2)) (Except.ok ()) (Except.ok ()) [9] _ rfl).1

/-- Claim C2, counterexample.  With peer a's queue closed and peer b's
queue open (pending), `Incoming::recv` resolves with `None`
(end-of-stream) even though a per-peer queue remains open:
`select_all` completes with the first ready future, which is the closed
queue's `next()`. -/
theorem recv_closed_queue_ce :
    Incoming.recv { channels := [("a", QueuePoll.closed), ("b", QueuePoll.pending)] } =
      SelectAll.resolved none ∧
    QueuePoll.pending ≠ QueuePoll.closed :=
  ⟨rfl, by decide⟩

/-- Helper for claim C2: when every queue is open-and-empty or closed and
at least one is closed, the first ready future `select_all` sees is a
closed queue's `next()`, whose value is `None`. -/
theorem findSome_polls_closed (l : List (String × QueuePoll))
    (hclosed : ∃ p ∈ l, p.2 = QueuePoll.closed)
    (hstates : ∀ p ∈ l, p.2 = QueuePoll.pending ∨ p.2 = QueuePoll.closed) :
    (l.map fun p => pollNext p.1 p.2).findSome? id = some none := by
  induction l with
  | nil => simp at hclosed
  | cons a t ih =>
    rcases hstates a (List.mem_cons_self a t) with ha | ha
    · have hclosed' : ∃ p ∈ t, p.2 = QueuePoll.closed := by
        rcases hclosed with ⟨p, hp, hc⟩
        rcases List.mem_cons.1 hp with rfl | hp'
        · rw [ha] at hc; exact absurd hc (by simp)
        · exact ⟨p, hp', hc⟩
      have ih' := ih hclosed' fun p hp => hstates p (List.mem_cons_of_mem _ hp)
      rw [List.map_cons, List.findSome?_cons, ha]
      exact ih'
    · rw [List.map_cons, List.findSome?_cons, ha]
      rfl

/-- Claim C2, amended.  `Incoming::recv` returns end-of-stream (`None`)
as soon as any per-peer queue is closed — whenever at least one queue is
closed and no queue has a message ready, `recv` resolves with `None`,
regardless of how many other queues are still open.  It does not wait for
every queue to close. -/
theorem recv_none_of_any_closed (inc : Incoming)
    (hclosed : ∃ p ∈ inc.channels, p.2 = QueuePoll.closed)
    (hstates : ∀ p ∈ inc.channels, p.2 = QueuePoll.pending ∨ p.2 = QueuePoll.closed) :
    inc.recv = SelectAll.resolved none := by
  have hf := findSome_polls_closed inc.channels hclosed hstates
  unfold Incoming.recv selectAll
  rw [hf]
  rcases hclosed with ⟨p, hp, _⟩
  cases hch : inc.channels with
  | nil => rw [hch] at hp; simp at hp
  | cons a t => simp

/-- Witness for `recv_none_of_any_closed`: peer a closed, peer c open. -/
theorem recv_none_of_any_closed_witness :
    (∃ p ∈ [("a", QueuePoll.closed), ("c", QueuePoll.pending)],
        p.2 = QueuePoll.closed) ∧
    (∀ p ∈ [("a", QueuePoll.closed), ("c", QueuePoll.pending)],
        p.2 = QueuePoll.pending ∨ p.2 = QueuePoll.closed) ∧
    Incoming.recv { channels := [("a", QueuePoll.closed), ("c", QueuePoll.pending)] } =
      SelectAll.resolved none :=
  ⟨by decide, by decide, recv_none_of_any_closed _ (by decide) (by decide)⟩

/-- Claim C9.  `Carrier::new` with an empty peer directory yields an
`Incoming` set with no queues; `recv` then calls `future::select_all` on
an empty collection, which panics — it neither suspends nor returns
end-of-stream. -/
theorem recv_empty_directory_panics :
    (Carrier.new []).2.1.recv = SelectAll.panicked ∧
    (Carrier.new []).2.1.recv ≠ SelectAll.suspended ∧
    (Carrier.new []).2.1.recv ≠ SelectAll.resolved none := by
  decide

namespace Node

/-- Claim C8.  For every accepted inbound connection that completed the
TLS handshake: no SNI server name → `serve_incoming` fails `Sni`; a name
that is not a configured peer → `UnknownServerName`; in both cases no
envelope is delivered to any incoming queue, and the `node::incoming`
wrapper logs at debug level and returns `Ok(())`, so the error does not
propagate. -/
theorem incoming_sni_unknown_errors (peers : List String)
    (app : NodeRequest → Option NodeResponse) (events : List InEvent)
    (name : String) (hunknown : name ∉ peers) :
    serve_incoming (Except.ok ()) none peers app events =
      (some (Except.error NodeError.Sni), []) ∧
    incoming (Except.ok ()) none peers app events =
      (some (Except.ok ()), [LogLevel.debug]) ∧
    serve_incoming (Except.ok ()) (some name) peers app events =
      (some (Except.error NodeError.UnknownServerName), []) ∧
    incoming (Except.ok ()) (some name) peers app events =
      (some (Except.ok ()), [LogLevel.debug]) := by
  refine ⟨rfl, rfl, ?_, ?_⟩
  · simp [serve_incoming, hunknown]
  · simp [incoming, serve_incoming, hunknown]

/-- Witness for `incoming_sni_unknown_errors`: a client presenting SNI
name "stranger" against the configured peer set `{"alice"}`. -/
theorem incoming_sni_unknown_errors_witness :
    ("stranger" ∉ ["alice"]) ∧
    serve_incoming (Except.ok ()) (some "stranger") ["alice"] (fun _ => none) [] =
      (some (Except.error NodeError.UnknownServerName), []) :=
  ⟨by decide,
   (incoming_sni_unknown_errors ["alice"] (fun _ => none) [] "stranger" (by decide)).2.2.1⟩

/-- Invariant of the outbound session loop: if every envelope event of
the trace registers its token under predicate `P`, then every in-flight
map entry and every delivered response satisfies `P` (entries come from
envelopes; deliveries come from map entries removed under the response's
request id). -/
theorem out_inv (P : Nat → Bytes → Prop) (tr : List OutEvent)
    (hP : ∀ msg tok, OutEvent.envelope msg tok ∈ tr → P tok msg.request_id)
    (s : OutState)
    (hc : ∀ k t, (k, t) ∈ s.callbacks → P t k)
    (hd : ∀ t r, (t, r) ∈ s.delivered → P t r.request_id) :
    (∀ k t, (k, t) ∈ (runLoop outStep s tr).1.callbacks → P t k) ∧
    (∀ t r, (t, r) ∈ (runLoop outStep s tr).1.delivered → P t r.request_id) := by
  induction tr generalizing s with
  | nil => exact ⟨hc, hd⟩
  | cons e es ih =>
    have hP' : ∀ m t, OutEvent.envelope m t ∈ es → P t m.request_id :=
      fun m t hm => hP m t (List.mem_cons_of_mem _ hm)
    cases e with
    | envelope msg tok =>
      have hPhead : P tok msg.request_id := hP msg tok (List.mem_cons_self _ _)
      have hc' : ∀ k t, (k, t) ∈ (mapInsert s.callbacks msg.request_id tok).1 → P t k := by
        intro k t hkt
        rcases mapInsert_mem hkt with h | ⟨rfl, rfl⟩
        · exact hc k t h
        · exact hPhead
      cases hins : (mapInsert s.callbacks msg.request_id tok).2 with
      | none =>
        have hstep : outStep s (.envelope msg tok) = .next
            { s with callbacks := (mapInsert s.callbacks msg.request_id tok).1,
                     wire := s.wire ++ [msg] } := by
          simp only [outStep]; rw [hins]
        simp only [runLoop]
        rw [hstep]
        exact ih hP' _ hc' hd
      | some oldTok =>
        have hstep : outStep s (.envelope msg tok) = .next
            { s with callbacks := (mapInsert s.callbacks msg.request_id tok).1,
                     errorLogs := s.errorLogs ++ [msg.request_id],
                     dropped := s.dropped ++ [oldTok] } := by
          simp only [outStep]; rw [hins]
        simp only [runLoop]
        rw [hstep]
        exact ih hP' _ hc' hd
    | response msg =>
      cases hrem : (mapRemove s.callbacks msg.request_id).2 with
      | none =>
        have hstep : outStep s (.response msg) =
            .halt s (.error (.UnexpectedResponse msg.request_id)) := by
          simp only [outStep]; rw [hrem]
        simp only [runLoop]
        rw [hstep]
        exact ⟨hc, hd⟩
      | some tok =>
        have hstep : outStep s (.response msg) = .next
            { s with callbacks := (mapRemove s.callbacks msg.request_id).1,
                     delivered := s.delivered ++ [(tok, msg)] } := by
          simp only [outStep]; rw [hrem]
        simp only [runLoop]
        rw [hstep]
        refine ih hP' _ (fun k t hkt => hc k t (mapRemove_mem hkt)) ?_
        intro t r htr
        rcases List.mem_append.1 htr with h | h
        · exact hd t r h
        · have h' := List.mem_singleton.1 h
          rw [show t = tok from congrArg Prod.fst h',
              show r = msg from congrArg Prod.snd h']
          exact hc msg.request_id tok (mapRemove_snd_mem hrem)
    | queueClosed =>
      simp only [runLoop, outStep]
      exact ⟨hc, hd⟩
    | readerEos =>
      simp only [runLoop, outStep]
      exact ⟨hc, hd⟩
    | readerErr err =>
      simp only [runLoop, outStep]
      exact ⟨hc, hd⟩

/-- Claim C6.  For every outbound session trace in which the envelope of
request `req` carries reply sender token `tok` (and `tok` is used by no
other envelope — each oneshot sender is created for exactly one request):
if the caller's `rx.await` inside `Outgoing::send` resolves with
`Ok(resp)`, then `resp.request_id = req.request_id` — the reply delivered
is the one the session removed from its in-flight map under the submitted
request's id. -/
theorem send_ok_same_request_id (tr : List OutEvent) (req : NodeRequest) (tok : Nat)
    (resp : NodeResponse)
    (henv : OutEvent.envelope req tok ∈ tr)
    (huniq : ∀ msg : NodeRequest, OutEvent.envelope msg tok ∈ tr → msg = req)
    (hok : callerOutcome (runLoop outStep initOutState tr).1 tok =
      some (Except.ok resp)) :
    resp.request_id = req.request_id := by
  have hmem : (tok, resp) ∈ (runLoop outStep initOutState tr).1.delivered := by
    unfold callerOutcome at hok
    cases hl : assocLookup (runLoop outStep initOutState tr).1.delivered tok with
    | some r =>
      rw [hl] at hok
      simp only [Option.some.injEq] at hok
      have hr : r = resp := by
        cases hok
        rfl
      subst hr
      exact assocLookup_mem hl
    | none =>
      rw [hl] at hok
      by_cases hdr : tok ∈ (runLoop outStep initOutState tr).1.dropped
      · rw [if_pos hdr] at hok
        simp at hok
      · rw [if_neg hdr] at hok
        simp at hok
  have inv := out_inv (fun t k => Registered tr t k) tr
    (fun msg t hm => ⟨msg, hm, rfl⟩) initOutState
    (by intro k t h; simp [initOutState] at h)
    (by intro t r h; simp [initOutState] at h)
  rcases inv.2 tok resp hmem with ⟨msg, hmsg, hid⟩
  rw [← hid, huniq msg hmsg]

/-- Witness for `send_ok_same_request_id` on the round-trip trace
`c6trace`. -/
theorem send_ok_same_request_id_witness :
    (OutEvent.envelope { request_id := [5], distance_list := [9] } 0 ∈ c6trace) ∧
    callerOutcome (runLoop outStep initOutState c6trace).1 0 =
      some (Except.ok { request_id := [5] }) ∧
    NodeResponse.request_id { request_id := [5] } =
      NodeRequest.request_id { request_id := [5], distance_list := [9] } := by
  refine ⟨by decide, by decide,
    send_ok_same_request_id c6trace _ 0 _ (by decide) ?_ (by decide)⟩
  intro msg hm
  simp [c6trace] at hm
  exact hm

/-- Claim C7, counterexample.  With an application that replies to the
request with id `[0]` by a response carrying request id `[1]`, the
inbound session writes a reply frame whose request id `[1]` does not
equal the id of any request received on the connection: the session
writes whatever `NodeResponse` the application pushes, unchecked. -/
theorem inbound_reply_id_ce :
    (runLoop (inStep badApp) initInState
        [InEvent.request { request_id := [0], distance_list := [] },
         InEvent.replyReady 0]).1.wire = [{ request_id := [1] }] ∧
    (runLoop (inStep badApp) initInState
        [InEvent.request { request_id := [0], distance_list := [] },
         InEvent.replyReady 0]).1.received =
      [{ request_id := [0], distance_list := [] }] ∧
    ¬ ∃ q ∈ (runLoop (inStep badApp) initInState
        [InEvent.request { request_id := [0], distance_list := [] },
         InEvent.replyReady 0]).1.received,
        ([1] : Bytes) = q.request_id := by
  decide

/-- Invariant of the inbound session loop, under an application that
echoes request ids: every pending request was received, and every reply
frame written carries the id of some received request. -/
theorem in_inv (app : NodeRequest → Option NodeResponse)
    (happ : ∀ q resp, app q = some resp → resp.request_id = q.request_id)
    (es : List InEvent) (s : InState)
    (hp : ∀ q ∈ s.pending, q ∈ s.received)
    (hw : ∀ r ∈ s.wire, ∃ q ∈ s.received, r.request_id = q.request_id) :
    (∀ q ∈ (runLoop (inStep app) s es).1.pending,
        q ∈ (runLoop (inStep app) s es).1.received) ∧
    (∀ r ∈ (runLoop (inStep app) s es).1.wire,
        ∃ q ∈ (runLoop (inStep app) s es).1.received, r.request_id = q.request_id) := by
  induction es generalizing s with
  | nil => exact ⟨hp, hw⟩
  | cons e t ih =>
    cases e with
    | request req =>
      simp only [runLoop, inStep]
      apply ih
      · intro q hq
        rcases List.mem_append.1 hq with h | h
        · exact List.mem_append_left _ (hp q h)
        · exact List.mem_append_right _ h
      · intro r hr
        rcases hw r hr with ⟨q, hq, hid⟩
        exact ⟨q, List.mem_append_left _ hq, hid⟩
    | replyReady i =>
      cases hg : s.pending.get? i with
      | none =>
        have hstep : inStep app s (.replyReady i) = .next s := by
          simp only [inStep]; rw [hg]
        simp only [runLoop]
        rw [hstep]
        exact ih s hp hw
      | some req =>
        have hreq : req ∈ s.received := hp req (List.get?_mem hg)
        have hsub : ∀ q ∈ s.pending.eraseIdx i, q ∈ s.received :=
          fun q hq => hp q ((List.eraseIdx_sublist _ _).subset hq)
        cases ha : app req with
        | none =>
          have hstep : inStep app s (.replyReady i) = .next
              { s with pending := s.pending.eraseIdx i } := by
            simp only [inStep, hg, ha]
          simp only [runLoop]
          rw [hstep]
          exact ih _ hsub hw
        | some resp =>
          have hstep : inStep app s (.replyReady i) = .next
              { s with pending := s.pending.eraseIdx i,
                       wire := s.wire ++ [resp] } := by
            simp only [inStep, hg, ha]
          simp only [runLoop]
          rw [hstep]
          refine ih _ hsub ?_
          intro r hr
          rcases List.mem_append.1 hr with h | h
          · exact hw r h
          · have h' := List.mem_singleton.1 h
            rw [h']
            exact ⟨req, hreq, happ req resp ha⟩
    | readerEos =>
      simp only [runLoop, inStep]
      exact ⟨hp, hw⟩
    | readerErr err =>
      simp only [runLoop, inStep]
      exact ⟨hp, hw⟩

/-- Claim C7, amended.  If the application echoes request ids verbatim
when producing a reply (as the protocol requires of it), then every reply
frame the inbound session writes carries the request id of some request
previously received on the same connection.  Without that assumption the
property fails: the session writes whatever `NodeResponse` the
application pushes into the reply channel. -/
theorem inbound_reply_ids_from_received (app : NodeRequest → Option NodeResponse)
    (happ : ∀ q resp, app q = some resp → resp.request_id = q.request_id)
    (events : List InEvent) (r : NodeResponse)
    (hr : r ∈ (runLoop (inStep app) initInState events).1.wire) :
    ∃ q ∈ (runLoop (inStep app) initInState events).1.received,
      r.request_id = q.request_id :=
  (in_inv app happ events initInState
    (by intro q hq; simp [initInState] at hq)
    (by intro r' hr'; simp [initInState] at hr')).2 r hr

/-- Witness for `inbound_reply_ids_from_received` with the echoing
application on a one-request trace. -/
theorem inbound_reply_ids_from_received_witness :
    ∃ q ∈ (runLoop (inStep echoApp) initInState
        [InEvent.request { request_id := [3], distance_list := [4] },
         InEvent.replyReady 0]).1.received,
      NodeResponse.request_id { request_id := [3] } = q.request_id :=
  inbound_reply_ids_from_received echoApp
    (fun q resp h => by
      simp only [echoApp, Option.some.injEq] at h
      rw [← h])
    [InEvent.request { request_id := [3], distance_list := [4] },
     InEvent.replyReady 0]
    { request_id := [3] } (by decide)

end Node

end MpcCarrier
